import Mathlib

/-!
# w3hub: the startup wiring of `cmd/w3hub/main.go`

A shallow embedding of `projects/w3hub/cmd/w3hub/main.go`:

* `blockchainWrapper` and its five methods (lines 20-46),
* the Go `float64` that `GetBalance` returns (line 25),
* the object graph and the control flow of `main` (lines 48-129),
* the two route patterns registered on the router (lines 109-110).

Packages whose code is not in this file (`ethereum`, `blockchain`, `asset`,
`alert`, the API constructor) enter as parameters: their carrier types are the
fields of `Pkg`, their functions are fields of `EthereumClient` and `Env`.
-/

set_option autoImplicit false
set_option exponentiation.threshold 4096

namespace W3hub

/-! ## Go `float64` -/

/-- A Go `float64` (IEEE-754 binary64). Every finite binary64 value is an
integer multiple of `2^-1074`, the smallest subnormal; `fin k` is the value
`k * 2^-1074`. The two zeros are one value here: Go's `==` does not tell them
apart. -/
inductive Float64 where
  | fin (k : Int)
  | inf (neg : Bool)
  | nan
  deriving DecidableEq

namespace Float64

/-- The number of binary digits of `n`, by repeated halving; the first argument
bounds the number of halvings and `bitLength n n` is the length of `n`. -/
def bitLength : Nat → Nat → Nat
  | 0, _ => 0
  | fuel + 1, n => if n = 0 then 0 else bitLength fuel (n / 2) + 1

/-- How many low binary digits of a magnitude do not fit in the 53-bit
significand. -/
def shift (n : Nat) : Nat := bitLength n n - 53

/-- Round a magnitude, in units of `2^-1074`, to 53 significant bits, ties to
even: the rounding of every binary64 operation in Go. Below `2^53` units the
shift is zero and nothing is rounded. -/
def roundMag (n : Nat) : Nat :=
  let s := shift n
  let q := n / 2 ^ s
  let r := n % 2 ^ s
  if 2 ^ s < 2 * r ∨ (2 * r = 2 ^ s ∧ q % 2 = 1) then (q + 1) * 2 ^ s else q * 2 ^ s

/-- The first magnitude that is no longer finite: `2^1024`, in units of
`2^-1074`. -/
def overflowUnits : Nat := 2 ^ 2098

/-- The binary64 value nearest to the exact quantity `d * 2^-1074`. -/
def ofUnits (d : Int) : Float64 :=
  let m := roundMag d.natAbs
  if overflowUnits ≤ m then inf (decide (d < 0))
  else if d < 0 then fin (-(m : Int)) else fin (m : Int)

/-- Go's conversion `float64(n)` of an integer. -/
def ofInt (n : Int) : Float64 := ofUnits (n * ((2 ^ 1074 : Nat) : Int))

/-- Whether a magnitude, in units of `2^-1074`, is a finite binary64 value. -/
def representable (n : Nat) : Prop :=
  2 ^ shift n ∣ n ∧ n < overflowUnits

instance (n : Nat) : Decidable (representable n) := by
  unfold representable; exact inferInstance

/-- Go's `a == b` on `float64`: NaN is equal to nothing, itself included. -/
def eq : Float64 → Float64 → Bool
  | fin a, fin b => decide (a = b)
  | inf s, inf t => s == t
  | _, _ => false

/-- Go's `a - b` on `float64`. -/
def sub : Float64 → Float64 → Float64
  | nan, _ => nan
  | _, nan => nan
  | inf s, inf t => if s = t then nan else inf s
  | inf s, fin _ => inf s
  | fin _, inf t => inf (!t)
  | fin a, fin b => ofUnits (a - b)

end Float64

/-! ## The packages outside this file -/

/-- Carrier types declared in packages whose source is not part of this file:
`context.Context`, `time.Time`, `blockchain.Asset`, `blockchain.Transaction`,
the receive-only channel `<-chan blockchain.Transaction`, the dynamic values of
Go's `error`, the state of everything the backend talks to, the configuration
that `loadConfig` returns, `*sql.DB`, `*asset.Manager` and the API object. -/
structure Pkg where
  Ctx : Type
  Time : Type
  Asset : Type
  Transaction : Type
  Chan : Type
  Err : Type
  World : Type
  Config : Type
  DB : Type
  Manager : Type
  API : Type

/-- A Go result pair `(value, error)`; a nil error is `none`. Both components
are always present, as in Go. -/
abbrev Result (P : Pkg) (α : Type) : Type := α × Option P.Err

/-- An effectful call: it reads and changes the outside world and returns a
result pair. -/
abbrev Call (P : Pkg) (α : Type) : Type := P.World → Result P α × P.World

/-- The `*ethereum.EthereumClient` of package `ethereum`: the four methods the
wrapper calls, with the signatures the call sites in lines 25-39 fix. -/
structure EthereumClient (P : Pkg) where
  GetBalance : P.Ctx → String → Call P Float64
  GetAssets : P.Ctx → String → Call P (List P.Asset)
  GetTransactions : P.Ctx → String → P.Time → P.Time → Call P (List P.Transaction)
  WatchAddress : P.Ctx → String → Call P P.Chan

/-! ## `blockchainWrapper` (lines 20-46) -/

/-- The struct of lines 21-23. A `*blockchainWrapper` is modelled by the struct
it points to: nothing in the file writes to a wrapper after it is built. -/
structure blockchainWrapper (P : Pkg) where
  client : EthereumClient P

/-- A non-nil value of the interface `blockchain.Client`, by dynamic type: the
wrapper, or the bare ethereum client that the comment of line 43 rules out. -/
inductive Client (P : Pkg) where
  | wrapper (w : blockchainWrapper P)
  | ethereum (c : EthereumClient P)

namespace blockchainWrapper

variable {P : Pkg}

/-- Line 25-27. -/
def GetBalance (w : blockchainWrapper P) (ctx : P.Ctx) (address : String) : Call P Float64 :=
  w.client.GetBalance ctx address

/-- Line 29-31. -/
def GetAssets (w : blockchainWrapper P) (ctx : P.Ctx) (address : String) :
    Call P (List P.Asset) :=
  w.client.GetAssets ctx address

/-- Line 33-35. -/
def GetTransactions (w : blockchainWrapper P) (ctx : P.Ctx) (address : String)
    (from' to' : P.Time) : Call P (List P.Transaction) :=
  w.client.GetTransactions ctx address from' to'

/-- Line 37-39. -/
def WatchAddress (w : blockchainWrapper P) (ctx : P.Ctx) (address : String) : Call P P.Chan :=
  w.client.WatchAddress ctx address

/-- Line 41-46. The first component is the interface value, `none` for nil. -/
def GetClient (w : blockchainWrapper P) (chainType : String) : Option (Client P) × Bool :=
  if chainType = "ethereum" then (some (Client.wrapper w), true) else (none, false)

end blockchainWrapper

/-! ## The chain registry -/

/-- Modelled from the spec: the multi-chain registry of package `blockchain`
(`NewMultiChainClient`, `RegisterClient`), whose source is not part of this
file. Spec 4.2: it maps a chain identifier string to a client;
`Register(id, client)` overwrites, the last registration wins;
`Resolve(id)` returns `(client, found)`. -/
structure MultiChainClient (P : Pkg) where
  clients : List (String × Client P)

namespace MultiChainClient

variable {P : Pkg}

/-- Modelled from the spec: `blockchain.NewMultiChainClient()`, the empty
registry. -/
def NewMultiChainClient : MultiChainClient P := ⟨[]⟩

/-- Modelled from the spec: `RegisterClient(id, client)`, overwriting an
earlier registration of the same id. -/
def RegisterClient (m : MultiChainClient P) (id : String) (c : Client P) :
    MultiChainClient P :=
  ⟨(id, c) :: m.clients.filter (fun e => decide (e.1 ≠ id))⟩

/-- Modelled from the spec: `Resolve(id) -> (client, found)`. -/
def Resolve (m : MultiChainClient P) (id : String) : Option (Client P) × Bool :=
  match m.clients.find? (fun e => decide (e.1 = id)) with
  | some e => (some e.2, true)
  | none => (none, false)

/-- The chain ids registered. -/
def ids (m : MultiChainClient P) : List String := m.clients.map Prod.fst

end MultiChainClient

/-! ## The notifier (lines 88-99) -/

/-- The struct literal of lines 89-94. -/
structure EmailNotifier where
  SMTPHost : String
  SMTPPort : Nat
  FromAddress : String
  FromPassword : String
  deriving DecidableEq

/-- The struct literal of lines 95-98. -/
structure TelegramNotifier where
  BotToken : String
  ChatID : String
  deriving DecidableEq

/-- An argument of `alert.NewMultiNotifier`. -/
inductive Notifier where
  | email (n : EmailNotifier)
  | telegram (n : TelegramNotifier)
  deriving DecidableEq

/-- Modelled from the spec: the value of `alert.NewMultiNotifier(...)`, whose
source is not part of this file. Spec 9: a notification boundary over a list
of delivery capabilities. -/
structure MultiNotifier where
  backends : List Notifier
  deriving DecidableEq

/-- Modelled from the spec: `alert.NewMultiNotifier`, keeping its arguments in
order. -/
def NewMultiNotifier (backends : List Notifier) : MultiNotifier := ⟨backends⟩

/-! ## `main` (lines 48-129) -/

/-- The two methods of the API object that `main` binds to routes. -/
inductive Handler where
  | GetAssets
  | GetAssetHistory
  deriving DecidableEq

/-- One `router.GET(pattern, handler)` registration. -/
structure Route where
  method : String
  pattern : String
  handler : Handler
  deriving DecidableEq

/-- Line 109. -/
def assetsRoute : Route := ⟨"GET", "/api/v1/assets/:chain/:address", Handler.GetAssets⟩

/-- Line 110. -/
def historyRoute : Route := ⟨"GET", "/api/v1/assets/history/:id", Handler.GetAssetHistory⟩

/-- Everything `main` calls that is not defined in the file: each field is the
answer the named function gives in one run of the process. -/
structure Env (P : Pkg) where
  /-- Call `loadConfig()`. -/
  loadConfig : Result P P.Config
  /-- The field `config.DatabasePath`. -/
  DatabasePath : P.Config → String
  /-- The field `config.EthRPCURL`. -/
  EthRPCURL : P.Config → String
  /-- Call `sql.Open(driver, path)`. -/
  sqlOpen : String → String → Result P P.DB
  /-- Call `initDatabase(db)`. -/
  initDatabase : P.DB → Option P.Err
  /-- Call `ethereum.NewEthereumClient(url)`. -/
  NewEthereumClient : String → Result P (EthereumClient P)
  /-- Call `asset.NewManager(db, client)`. -/
  NewManager : P.DB → blockchainWrapper P → P.Manager
  /-- Call `os.Getenv(name)`. -/
  Getenv : String → String
  /-- Call `NewAPI(assetManager)`. -/
  NewAPI : P.Manager → P.API
  /-- The error with which `router.Run(addr)` returns, `none` when it serves
  until the process ends. -/
  routerRun : String → Option P.Err
  /-- The context of `signal.NotifyContext`. -/
  NotifyContext : P.Ctx
  /-- Call `assetManager.TrackAssets(ctx, chain, addresses)`. -/
  TrackAssets : P.Manager → P.Ctx → String → List String → Option P.Err
  /-- Whether SIGINT or SIGTERM ever arrives, closing `ctx.Done()`. -/
  signalled : Bool

/-- The objects that lines 76-110 and 122-123 build. -/
structure Wiring (P : Pkg) where
  chainClient : MultiChainClient P
  wrappedEthClient : blockchainWrapper P
  assetManager : P.Manager
  notifier : MultiNotifier
  api : P.API
  routes : List Route
  /-- The chain id argument of `TrackAssets` in line 123. -/
  chain : String
  /-- The slice of line 122. -/
  addresses : List String

/-- Lines 76-110 and 122, in order. -/
def wire {P : Pkg} (env : Env P) (db : P.DB) (ethClient : EthereumClient P) : Wiring P :=
  let chainClient : MultiChainClient P := MultiChainClient.NewMultiChainClient
  let wrappedEthClient : blockchainWrapper P := { client := ethClient }
  let chainClient := chainClient.RegisterClient "ethereum" (Client.wrapper wrappedEthClient)
  let assetManager := env.NewManager db wrappedEthClient
  let notifier := NewMultiNotifier
    [ Notifier.email
        { SMTPHost := env.Getenv "SMTP_HOST"
          SMTPPort := 587
          FromAddress := env.Getenv "EMAIL_FROM"
          FromPassword := env.Getenv "EMAIL_PASSWORD" },
      Notifier.telegram
        { BotToken := env.Getenv "TELEGRAM_TOKEN"
          ChatID := env.Getenv "TELEGRAM_CHAT_ID" } ]
  -- line 102: `_ = notifier`
  let api := env.NewAPI assetManager
  { chainClient := chainClient
    wrappedEthClient := wrappedEthClient
    assetManager := assetManager
    notifier := notifier
    api := api
    routes := [assetsRoute, historyRoute]
    chain := "ethereum"
    addresses := ["0xYourAddress1", "0xYourAddress2"] }

/-- The call whose error ended the process through `log.Fatal` or
`logger.Fatalf`. -/
inductive Stage where
  | loadConfig
  | sqlOpen
  | initDatabase
  | NewEthereumClient
  | routerRun
  | TrackAssets
  deriving DecidableEq

/-- Lines 48-110: the four fallible initialisations, each fatal on error, then
the wiring. -/
def startup {P : Pkg} (env : Env P) : Except (Stage × P.Err) (Wiring P) :=
  match env.loadConfig with
  | (_, some err) => Except.error (Stage.loadConfig, err)
  | (config, none) =>
    match env.sqlOpen "sqlite3" (env.DatabasePath config) with
    | (_, some err) => Except.error (Stage.sqlOpen, err)
    | (db, none) =>
      match env.initDatabase db with
      | some err => Except.error (Stage.initDatabase, err)
      | none =>
        match env.NewEthereumClient (env.EthRPCURL config) with
        | (_, some err) => Except.error (Stage.NewEthereumClient, err)
        | (ethClient, none) => Except.ok (wire env db ethClient)

/-- The two goroutines of the process: `main`, and the one that the `go`
statement of lines 112-116 starts. -/
inductive Goroutine where
  | main
  | router
  deriving DecidableEq

/-- Where the main goroutine stands once the `go` statement is behind it. -/
inductive MainPc where
  /-- Lines 119-123: up to and inside the call of `TrackAssets`. -/
  | tracking
  /-- Line 127: blocked on `<-ctx.Done()`. -/
  | waiting
  deriving DecidableEq

/-- Where the goroutine of lines 112-116 stands. -/
inductive RouterPc where
  /-- Started by the `go` statement, `router.Run` not yet called. -/
  | spawned
  /-- Inside `router.Run(":8080")`, which has not returned. -/
  | running
  deriving DecidableEq

/-- The process: ended, or running with both goroutines somewhere. -/
inductive Process (P : Pkg) where
  /-- A `log.Fatal`, `log.Fatalf` or `logger.Fatalf`: the error is logged and
  `os.Exit(1)` ends the process, every goroutine included. -/
  | fatal (stage : Stage) (err : P.Err)
  /-- The channel `ctx.Done()` was closed: "Shutting down..." is logged and
  `main` returns, which ends the process with status 0. -/
  | returned
  /-- The process runs. -/
  | live (mainPc : MainPc) (routerPc : RouterPc)

/-- The exit status of the process, `none` while it runs. -/
def Process.exitStatus {P : Pkg} : Process P → Option Nat
  | fatal _ _ => some 1
  | returned => some 0
  | live _ _ => none

/-- Whether the query API is being served: the process runs and the router
goroutine is inside `router.Run(":8080")` of line 113. -/
def serving {P : Pkg} : Process P → Bool
  | Process.live _ RouterPc.running => true
  | _ => false

/-- One step of one goroutine, lines 112-128.

The main goroutine gets the answer of `TrackAssets` and, on an error, calls
`log.Fatal` (lines 123-125); blocked on `<-ctx.Done()` it returns once a
signal has arrived (lines 127-128). The router goroutine calls `router.Run`
and, when that returns an error, calls `logger.Fatalf` (lines 113-115). A
process that has ended takes no step. -/
def step {P : Pkg} (env : Env P) (w : Wiring P) (g : Goroutine) : Process P → Process P
  | Process.live m r =>
    match g with
    | Goroutine.main =>
      match m with
      | MainPc.tracking =>
        match env.TrackAssets w.assetManager env.NotifyContext w.chain w.addresses with
        | some err => Process.fatal Stage.TrackAssets err
        | none => Process.live MainPc.waiting r
      | MainPc.waiting => if env.signalled then Process.returned else Process.live m r
    | Goroutine.router =>
      match r with
      | RouterPc.spawned => Process.live m RouterPc.running
      | RouterPc.running =>
        match env.routerRun ":8080" with
        | some err => Process.fatal Stage.routerRun err
        | none => Process.live m r
  | s => s

/-- The process of lines 48-129 under a schedule, the order in which the two
goroutines take their steps. An error of one of the four initialisations ends
the process before the `go` statement; otherwise the main goroutine goes on to
`TrackAssets` while the other one has just been started. -/
def main {P : Pkg} (env : Env P) (schedule : List Goroutine) : Process P :=
  match startup env with
  | Except.error (stage, err) => Process.fatal stage err
  | Except.ok w =>
    schedule.foldl (fun s g => step env w g s) (Process.live MainPc.tracking RouterPc.spawned)

/-! ## Route patterns (lines 109-110) -/

/-- One segment of a route pattern. -/
inductive Segment where
  | literal (s : String)
  | param (name : String)
  deriving DecidableEq

/-- Cut a character list at every `/`. -/
def splitSlash : List Char → List (List Char)
  | [] => [[]]
  | c :: cs =>
    match splitSlash cs with
    | [] => [[]]
    | seg :: rest => if c = '/' then [] :: seg :: rest else (c :: seg) :: rest

/-- The segments of a path that starts with `/`. -/
def pathSegments (path : String) : Option (List String) :=
  match path.toList with
  | '/' :: cs => some ((splitSlash cs).map String.mk)
  | _ => none

/-- A pattern segment that starts with `:` is a parameter, any other one is a
literal. -/
def toSegment (s : String) : Segment :=
  match s.toList with
  | ':' :: name => Segment.param (String.mk name)
  | _ => Segment.literal s

/-- The segments of a route pattern. -/
def parsePattern (pattern : String) : Option (List Segment) :=
  (pathSegments pattern).map (List.map toSegment)

/-- A parameter matches any single non-empty path segment, a literal matches
only itself. -/
def matchSegments : List Segment → List String → Bool
  | [], [] => true
  | Segment.literal s :: ps, x :: xs => decide (s = x) && matchSegments ps xs
  | Segment.param _ :: ps, x :: xs => decide (x ≠ "") && matchSegments ps xs
  | _, _ => false

/-- Whether a route pattern matches a request path. -/
def Route.matchesPath (r : Route) (path : String) : Bool :=
  match parsePattern r.pattern, pathSegments path with
  | some ps, some xs => matchSegments ps xs
  | _, _ => false

/-! ## The activity detector -/

/-- Modelled from the spec: the identity of an asset, spec 3: (chain, address,
symbol). The type `blockchain.Asset` is declared outside this file. -/
structure AssetId where
  chain : String
  address : String
  symbol : String
  deriving DecidableEq

/-- Modelled from the spec: an asset of a snapshot, spec 3: identity, quantity
and time of the last update. The quantity is fixed-point, a whole number of
the smallest unit. -/
structure Asset where
  id : AssetId
  quantity : Int
  lastUpdated : Nat
  deriving DecidableEq

/-- Modelled from the spec: an `AlertEvent` of kind balance-change, spec 3: the
chain and address of the asset identity, with the symbol and the signed delta
as payload. The field `detectedAt` is left to the caller: a side-effect-free
`detect` reads no clock. -/
structure AlertEvent where
  id : AssetId
  delta : Int
  deriving DecidableEq

namespace ActivityDetector

/-- Modelled from the spec: the quantity a snapshot records for an asset; an
asset that the snapshot does not list is not held (spec 4.1: an address that
holds nothing has an empty list). -/
def quantityOf (snapshot : List Asset) (k : AssetId) : Int :=
  match snapshot.find? (fun a => decide (a.id = k)) with
  | some a => a.quantity
  | none => 0

/-- Modelled from the spec: `ActivityDetector.detect`, spec 4.4, whose source
is not part of this file: given the previous snapshot and the newly fetched
assets, one balance-change event for every asset whose quantity differs beyond
the configured epsilon, a tolerance in units of the quantity. -/
def detect (epsilon : Nat) (old new : List Asset) : List AlertEvent :=
  ((new.map Asset.id ++ old.map Asset.id).dedup).filterMap fun k =>
    let delta := quantityOf new k - quantityOf old k
    if epsilon < delta.natAbs then some ⟨k, delta⟩ else none

end ActivityDetector

/-- Token X held by address 0xA on ethereum, the asset of the scenario of
spec 8. -/
def tokenX : AssetId := ⟨"ethereum", "0xA", "X"⟩

/-! ## Concrete instances -/

/-- A package instance with small carriers: contexts and channels are numbers,
assets, transactions, errors and the database handle are strings, the world is
a call counter, a manager is the pair of what `NewManager` was given. -/
@[reducible] def demoPkg : Pkg where
  Ctx := Nat
  Time := Nat
  Asset := String
  Transaction := String
  Chan := Nat
  Err := String
  World := Nat
  Config := String × String
  DB := String
  Manager := String × Nat
  API := String × Nat

/-- A backend that knows three addresses and counts its calls. -/
def demoClient : EthereumClient demoPkg where
  GetBalance := fun _ address (n : Nat) =>
    if address = "0xA" then ((Float64.ofInt 18014398509481984, none), n + 1)
    else if address = "0xB" then ((Float64.ofInt 1, none), n + 1)
    else if address = "0xC" then ((Float64.ofInt 3, none), n + 1)
    else ((Float64.fin 0, some "InvalidAddress"), n + 1)
  GetAssets := fun _ address (n : Nat) =>
    if address = "0xA" then ((["ETH"], none), n + 1) else (([], some "BackendUnavailable"), n + 1)
  GetTransactions := fun _ _ (from' to' : Nat) (n : Nat) =>
    if from' ≤ to' then ((["0xdeadbeef"], none), n + 1) else (([], none), n + 1)
  WatchAddress := fun _ _ (n : Nat) => ((n, none), n + 1)

/-- The wrapper around `demoClient`. -/
def demoWrapper : blockchainWrapper demoPkg := { client := demoClient }

/-- A run in which every initialisation succeeds, the router keeps serving, no
signal arrives, and `TrackAssets` answers with the given error. -/
def demoEnv (trackError : Option String) : Env demoPkg where
  loadConfig := (("w3hub.db", "http://localhost:8545"), none)
  DatabasePath := fun c => c.1
  EthRPCURL := fun c => c.2
  sqlOpen := fun _ path => (path, none)
  initDatabase := fun _ => none
  NewEthereumClient := fun _ => (demoClient, none)
  NewManager := fun db _ => (db, 0)
  Getenv := fun _ => ""
  NewAPI := fun m => m
  routerRun := fun _ => none
  NotifyContext := 0
  TrackAssets := fun _ _ _ _ => trackError
  signalled := false

/-- A run like `demoEnv`, except that `router.Run` returns an error. -/
def busyEnv (trackError : Option String) : Env demoPkg :=
  { demoEnv trackError with routerRun := fun _ => some "address already in use" }

/-! ## Theorems -/

section Wrapper

variable {P : Pkg}

/-- C1: for every chain identifier other than exactly "ethereum",
`GetClient` returns the pair of a nil client and `found = false`, as an
ordinary return value. -/
theorem GetClient_unknown (w : blockchainWrapper P) (s : String) (h : s ≠ "ethereum") :
    w.GetClient s = (none, false) := by
  unfold blockchainWrapper.GetClient
  rw [if_neg h]

/-- Witness of C1 at "solana", the empty string and "Ethereum". -/
theorem GetClient_unknown_witness :
    ("solana" ≠ "ethereum" ∧ demoWrapper.GetClient "solana" = (none, false)) ∧
    ("" ≠ "ethereum" ∧ demoWrapper.GetClient "" = (none, false)) ∧
    ("Ethereum" ≠ "ethereum" ∧ demoWrapper.GetClient "Ethereum" = (none, false)) :=
  ⟨⟨by decide, GetClient_unknown demoWrapper "solana" (by decide)⟩,
   ⟨by decide, GetClient_unknown demoWrapper "" (by decide)⟩,
   ⟨by decide, GetClient_unknown demoWrapper "Ethereum" (by decide)⟩⟩

/-- C2: for every wrapper `w`, `w.GetClient "ethereum"` returns `found = true`
and the client returned is `w` itself: not nil, and not the ethereum client
inside `w`. -/
theorem GetClient_ethereum (w : blockchainWrapper P) :
    w.GetClient "ethereum" = (some (Client.wrapper w), true) ∧
    (w.GetClient "ethereum").1 ≠ none ∧
    (w.GetClient "ethereum").1 ≠ some (Client.ethereum w.client) := by
  have h : w.GetClient "ethereum" = (some (Client.wrapper w), true) := by
    unfold blockchainWrapper.GetClient
    rw [if_pos rfl]
  refine ⟨h, ?_, ?_⟩
  · rw [h]; exact Option.some_ne_none _
  · rw [h]; intro hc; cases hc

/-- C3: each of the wrapper's four operations is the same-named operation of
the client inside it, applied to the same arguments in the same order: the two
are the same call, so they act on the outside world alike and return the same
result pair, value and error. -/
theorem wrapper_transparent (c : EthereumClient P) (ctx : P.Ctx) (address : String)
    (from' to' : P.Time) :
    (blockchainWrapper.mk c).GetBalance ctx address = c.GetBalance ctx address ∧
    (blockchainWrapper.mk c).GetAssets ctx address = c.GetAssets ctx address ∧
    (blockchainWrapper.mk c).GetTransactions ctx address from' to' =
      c.GetTransactions ctx address from' to' ∧
    (blockchainWrapper.mk c).WatchAddress ctx address = c.WatchAddress ctx address :=
  ⟨rfl, rfl, rfl, rfl⟩

end Wrapper

section Main

variable {P : Pkg}

/-- A process that has ended stays as it is. -/
theorem foldl_step_of_exited (env : Env P) (w : Wiring P) (schedule : List Goroutine)
    (s : Process P) (h : s.exitStatus ≠ none) :
    schedule.foldl (fun s g => step env w g s) s = s := by
  induction schedule with
  | nil => rfl
  | cons g t ih =>
    rw [List.foldl_cons]
    cases s with
    | live m r => exact absurd rfl h
    | fatal st e => exact ih
    | returned => exact ih

/-- When `TrackAssets` answers with an error, a process in which the main
goroutine has still to get that answer, and gets it, ends with status 1. -/
theorem foldl_step_trackAssets_error (env : Env P) (w : Wiring P) (err : P.Err)
    (ht : env.TrackAssets w.assetManager env.NotifyContext w.chain w.addresses = some err)
    (schedule : List Goroutine) :
    ∀ r, Goroutine.main ∈ schedule →
      (schedule.foldl (fun s g => step env w g s)
        (Process.live MainPc.tracking r)).exitStatus = some 1 := by
  induction schedule with
  | nil => intro r hm; cases hm
  | cons g t ih =>
    intro r hm
    rw [List.foldl_cons]
    cases g with
    | main =>
      have hst : step env w Goroutine.main (Process.live MainPc.tracking r) =
          Process.fatal Stage.TrackAssets err := by
        simp only [step, ht]
      rw [hst, foldl_step_of_exited env w t _ (by simp [Process.exitStatus])]
      rfl
    | router =>
      have hm' : Goroutine.main ∈ t := by
        rcases List.mem_cons.1 hm with h | h
        · cases h
        · exact h
      cases r with
      | spawned => exact ih RouterPc.running hm'
      | running =>
        cases hr : env.routerRun ":8080" with
        | none =>
          have hst : step env w Goroutine.router (Process.live MainPc.tracking RouterPc.running) =
              Process.live MainPc.tracking RouterPc.running := by
            simp only [step, hr]
          rw [hst]
          exact ih RouterPc.running hm'
        | some e =>
          have hst : step env w Goroutine.router (Process.live MainPc.tracking RouterPc.running) =
              Process.fatal Stage.routerRun e := by
            simp only [step, hr]
          rw [hst, foldl_step_of_exited env w t _ (by simp [Process.exitStatus])]
          rfl

/-- When `TrackAssets` answers nil, `router.Run` does not return and no signal
arrives, the process runs on, and the router goroutine is inside `router.Run`
as soon as it has taken a step. -/
theorem foldl_step_quiet (env : Env P) (w : Wiring P)
    (ht : env.TrackAssets w.assetManager env.NotifyContext w.chain w.addresses = none)
    (hr : env.routerRun ":8080" = none) (hsig : env.signalled = false)
    (schedule : List Goroutine) :
    ∀ m r, ∃ m' r', schedule.foldl (fun s g => step env w g s) (Process.live m r) =
        Process.live m' r' ∧
      (r' = RouterPc.running ↔ r = RouterPc.running ∨ Goroutine.router ∈ schedule) := by
  induction schedule with
  | nil => intro m r; exact ⟨m, r, rfl, by simp⟩
  | cons g t ih =>
    intro m r
    rw [List.foldl_cons]
    cases g with
    | main =>
      have hst : ∃ m₁, step env w Goroutine.main (Process.live m r) = Process.live m₁ r := by
        cases m with
        | tracking => exact ⟨MainPc.waiting, by simp only [step, ht]⟩
        | waiting => exact ⟨MainPc.waiting, by simp [step, hsig]⟩
      obtain ⟨m₁, hm₁⟩ := hst
      rw [hm₁]
      obtain ⟨m', r', he, hiff⟩ := ih m₁ r
      exact ⟨m', r', he, by simpa using hiff⟩
    | router =>
      have hst : step env w Goroutine.router (Process.live m r) =
          Process.live m RouterPc.running := by
        cases r with
        | spawned => rfl
        | running => simp only [step, hr]
      rw [hst]
      obtain ⟨m', r', he, hiff⟩ := ih m RouterPc.running
      exact ⟨m', r', he, by simpa using hiff⟩

/-- C5: the asset manager, the API built from it, the registry and the whole
course of the process, under every schedule, are the same for every content of
the environment variables the notifier is built from, while the notifier
itself follows them: the notifier reaches none of them. -/
theorem main_ignores_notifier (env : Env P) (getenv : String → String) (db : P.DB)
    (c : EthereumClient P) (schedule : List Goroutine) :
    (wire { env with Getenv := getenv } db c).assetManager = (wire env db c).assetManager ∧
    (wire { env with Getenv := getenv } db c).api = (wire env db c).api ∧
    (wire { env with Getenv := getenv } db c).chainClient = (wire env db c).chainClient ∧
    main { env with Getenv := getenv } schedule = main env schedule ∧
    (wire (demoEnv none) "w3hub.db" demoClient).notifier ≠
      (wire { demoEnv none with Getenv := fun _ => "123:abc" } "w3hub.db" demoClient).notifier ∧
    (wire (demoEnv none) "w3hub.db" demoClient).assetManager =
      (wire { demoEnv none with Getenv := fun _ => "123:abc" } "w3hub.db"
        demoClient).assetManager := by
  refine ⟨rfl, rfl, rfl, ?_, by decide, rfl⟩
  obtain ⟨lc, dp, url, so, idb, nec, nm, ge, na, rr, nc, ta, sg⟩ := env
  rcases lc with ⟨config, _ | e1⟩
  · simp only [main, startup]
    rcases so "sqlite3" (dp config) with ⟨db', _ | e2⟩
    · simp only []
      rcases idb db' with _ | e3
      · simp only []
        rcases nec (url config) with ⟨c', _ | e4⟩
        · rfl
        · rfl
      · rfl
    · rfl
  · rfl

/-- C6, the claim refuted: in a run where every initialisation succeeds and
the router serves, the API is served while `TrackAssets` runs, and its
`InvalidAddress` (or `UnknownChain`) error then ends the process with status
1, and the query API with it, whichever goroutine goes first. -/
theorem trackAssets_error_is_fatal :
    serving (main (demoEnv (some "InvalidAddress")) [Goroutine.router]) = true ∧
    (main (demoEnv (some "InvalidAddress")) [Goroutine.router, Goroutine.main]).exitStatus =
      some 1 ∧
    serving (main (demoEnv (some "InvalidAddress")) [Goroutine.router, Goroutine.main]) =
      false ∧
    (main (demoEnv (some "InvalidAddress")) [Goroutine.main, Goroutine.router]).exitStatus =
      some 1 ∧
    serving (main (demoEnv (some "InvalidAddress")) [Goroutine.main, Goroutine.router]) =
      false ∧
    (main (demoEnv (some "UnknownChain")) [Goroutine.router, Goroutine.main]).exitStatus =
      some 1 ∧
    serving (main (demoEnv (some "UnknownChain")) [Goroutine.router, Goroutine.main]) = false ∧
    serving (main (demoEnv none) [Goroutine.router, Goroutine.main]) = true :=
  ⟨rfl, rfl, rfl, rfl, rfl, rfl, rfl, rfl⟩

/-- C6 as amended: once the initialisations of `main` have succeeded, the query
API is served from the moment the router goroutine has called `router.Run`,
also while `TrackAssets` runs. Every error that `TrackAssets` returns is
fatal: under every schedule in which the main goroutine gets that answer the
process has exited with status 1 and the API is no longer served. An error
that `router.Run` returns while the API is served is fatal in the same way.
When `TrackAssets` returns nil, `router.Run` does not return and no signal
arrives, the process does not exit, and the API is served as soon as the
router goroutine has taken a step. -/
theorem main_exit_and_serving (env : Env P) (w : Wiring P) (hs : startup env = Except.ok w)
    (schedule : List Goroutine) :
    serving (main env [Goroutine.router]) = true ∧
    (∀ err, env.TrackAssets w.assetManager env.NotifyContext w.chain w.addresses = some err →
      Goroutine.main ∈ schedule →
        (main env schedule).exitStatus = some 1 ∧ serving (main env schedule) = false) ∧
    (∀ err, env.routerRun ":8080" = some err → serving (main env schedule) = true →
      (main env (schedule ++ [Goroutine.router])).exitStatus = some 1 ∧
        serving (main env (schedule ++ [Goroutine.router])) = false) ∧
    (env.TrackAssets w.assetManager env.NotifyContext w.chain w.addresses = none →
      env.routerRun ":8080" = none → env.signalled = false →
        (main env schedule).exitStatus = none ∧
          (serving (main env schedule) = true ↔ Goroutine.router ∈ schedule)) := by
  have hmain : ∀ sch, main env sch =
      sch.foldl (fun s g => step env w g s) (Process.live MainPc.tracking RouterPc.spawned) := by
    intro sch
    unfold main
    rw [hs]
  refine ⟨?_, ?_, ?_, ?_⟩
  · rw [hmain]
    rfl
  · intro err ht hm
    have h1 := foldl_step_trackAssets_error env w err ht schedule RouterPc.spawned hm
    rw [← hmain] at h1
    refine ⟨h1, ?_⟩
    cases hp : main env schedule with
    | live m r => rw [hp] at h1; cases h1
    | fatal st e => rfl
    | returned => rfl
  · intro err hr hsv
    rw [hmain (schedule ++ [Goroutine.router]), List.foldl_append, ← hmain]
    cases hp : main env schedule with
    | fatal st e => rw [hp] at hsv; cases hsv
    | returned => rw [hp] at hsv; cases hsv
    | live m r =>
      rw [hp] at hsv
      cases r with
      | spawned => cases hsv
      | running =>
        simp only [List.foldl_cons, List.foldl_nil, step, hr]
        exact ⟨rfl, rfl⟩
  · intro ht hr hsig
    obtain ⟨m', r', he, hiff⟩ :=
      foldl_step_quiet env w ht hr hsig schedule MainPc.tracking RouterPc.spawned
    rw [hmain, he]
    refine ⟨rfl, ?_⟩
    cases r' with
    | spawned =>
      constructor
      · intro h; cases h
      · intro h
        have := hiff.2 (Or.inr h)
        cases this
    | running =>
      constructor
      · intro _
        rcases hiff.1 rfl with h | h
        · cases h
        · exact h
      · intro _; rfl

/-- Witness of the amended C6: the run in which every initialisation succeeds
and `TrackAssets` answers `InvalidAddress`, and the run in which `router.Run`
returns an error. -/
theorem main_exit_and_serving_witness :
    startup (demoEnv (some "InvalidAddress")) =
      Except.ok (wire (demoEnv (some "InvalidAddress")) "w3hub.db" demoClient) ∧
    Goroutine.main ∈ [Goroutine.router, Goroutine.main] ∧
    ((main (demoEnv (some "InvalidAddress")) [Goroutine.router, Goroutine.main]).exitStatus =
        some 1 ∧
      serving (main (demoEnv (some "InvalidAddress")) [Goroutine.router, Goroutine.main]) =
        false) ∧
    (main (busyEnv none) [Goroutine.router, Goroutine.main, Goroutine.router]).exitStatus =
      some 1 :=
  ⟨rfl, by decide,
   (main_exit_and_serving (demoEnv (some "InvalidAddress"))
      (wire (demoEnv (some "InvalidAddress")) "w3hub.db" demoClient) rfl
      [Goroutine.router, Goroutine.main]).2.1 "InvalidAddress" rfl (by decide),
   rfl⟩

/-- C9: in the objects `main` builds, the registry holds exactly the id
"ethereum", bound to the wrapper; the wrapper, which is the resolver handed to
the asset manager, answers every chain id as the registry does, so it finds
exactly the registered ids, and both resolve "ethereum" to the same wrapper;
the chain id passed to `TrackAssets` is registered and the two addresses
passed with it are distinct. -/
theorem wiring_chain_ids (env : Env P) (db : P.DB) (c : EthereumClient P) :
    (wire env db c).chainClient.ids = ["ethereum"] ∧
    (wire env db c).assetManager = env.NewManager db (wire env db c).wrappedEthClient ∧
    (∀ s, (wire env db c).chainClient.Resolve s = (wire env db c).wrappedEthClient.GetClient s) ∧
    (∀ s, ((wire env db c).wrappedEthClient.GetClient s).2 = true ↔
      s ∈ (wire env db c).chainClient.ids) ∧
    (wire env db c).chainClient.Resolve "ethereum" =
      (some (Client.wrapper (wire env db c).wrappedEthClient), true) ∧
    (wire env db c).wrappedEthClient.GetClient "ethereum" =
      (some (Client.wrapper (wire env db c).wrappedEthClient), true) ∧
    (wire env db c).chain ∈ (wire env db c).chainClient.ids ∧
    (wire env db c).addresses = ["0xYourAddress1", "0xYourAddress2"] ∧
    (wire env db c).addresses.Nodup := by
  have hres : ∀ s, (wire env db c).chainClient.Resolve s =
      (wire env db c).wrappedEthClient.GetClient s := by
    intro s
    unfold blockchainWrapper.GetClient
    by_cases h : s = "ethereum"
    · subst h
      rfl
    · have h2 : ¬ ("ethereum" = s) := fun e => h e.symm
      simp [wire, MultiChainClient.Resolve, MultiChainClient.RegisterClient,
        MultiChainClient.NewMultiChainClient, h, h2]
  refine ⟨rfl, rfl, hres, ?_, ?_, ?_, ?_, rfl, ?_⟩
  · intro s
    unfold blockchainWrapper.GetClient
    by_cases h : s = "ethereum"
    · subst h
      simp [wire, MultiChainClient.ids, MultiChainClient.RegisterClient,
        MultiChainClient.NewMultiChainClient]
    · simp [wire, MultiChainClient.ids, MultiChainClient.RegisterClient,
        MultiChainClient.NewMultiChainClient, h]
  · rfl
  · unfold blockchainWrapper.GetClient
    rw [if_pos rfl]
  · simp [wire, MultiChainClient.ids, MultiChainClient.RegisterClient,
      MultiChainClient.NewMultiChainClient]
  · show ["0xYourAddress1", "0xYourAddress2"].Nodup
    decide

end Main

section Routes

/-- The pattern of line 109, parsed. -/
theorem parsePattern_assetsRoute :
    parsePattern assetsRoute.pattern =
      some [Segment.literal "api", Segment.literal "v1", Segment.literal "assets",
        Segment.param "chain", Segment.param "address"] := by
  decide

/-- The pattern of line 110, parsed. -/
theorem parsePattern_historyRoute :
    parsePattern historyRoute.pattern =
      some [Segment.literal "api", Segment.literal "v1", Segment.literal "assets",
        Segment.literal "history", Segment.param "id"] := by
  decide

/-- C8, the claim refuted: the request path `/api/v1/assets/history/42` is
matched by both patterns, the first one taking "history" for the chain. -/
theorem routes_overlap :
    assetsRoute.matchesPath "/api/v1/assets/history/42" = true ∧
    historyRoute.matchesPath "/api/v1/assets/history/42" = true := by
  decide

/-- C8 as amended: a request path is matched by both patterns exactly when it
is `/api/v1/assets/history/x` with `x` non-empty; every other path is matched
by at most one of them, and whatever the history pattern matches the assets
pattern matches too. -/
theorem routes_overlap_iff (path : String) :
    ((assetsRoute.matchesPath path = true ∧ historyRoute.matchesPath path = true) ↔
      ∃ x, x ≠ "" ∧ pathSegments path = some ["api", "v1", "assets", "history", x]) ∧
    (historyRoute.matchesPath path = true → assetsRoute.matchesPath path = true) := by
  unfold Route.matchesPath
  rw [parsePattern_assetsRoute, parsePattern_historyRoute]
  cases pathSegments path with
  | none => simp
  | some xs =>
    rcases xs with _ | ⟨a, _ | ⟨b, _ | ⟨c, _ | ⟨d, _ | ⟨e, _ | ⟨f, r⟩⟩⟩⟩⟩⟩ <;>
      simp [matchSegments]
    have hd : ("history" : String) ≠ "" := by decide
    constructor
    · constructor
      · rintro ⟨-, ha, hb, hc, hd', he⟩
        exact ⟨e, he, ha.symm, hb.symm, hc.symm, hd'.symm, rfl⟩
      · rintro ⟨x, hx, ha, hb, hc, hd', he⟩
        subst ha hb hc hd' he
        exact ⟨⟨rfl, rfl, rfl, hd, hx⟩, rfl, rfl, rfl, rfl, hx⟩
    · intro ha hb hc hd' he
      subst hd'
      exact ⟨ha, hb, hc, hd, he⟩

end Routes

section Amounts

open Float64

/-- Halving `fuel` times at most, a number below `2^k` has at most `k` binary
digits. -/
theorem Float64.bitLength_le (fuel : Nat) : ∀ (n k : Nat), n < 2 ^ k → bitLength fuel n ≤ k := by
  induction fuel with
  | zero => intro n k _; simp [bitLength]
  | succ f ih =>
    intro n k hn
    unfold bitLength
    by_cases h0 : n = 0
    · simp [h0]
    · rw [if_neg h0]
      cases k with
      | zero =>
        have : n < 1 := by simpa using hn
        omega
      | succ k =>
        have h2 : n / 2 < 2 ^ k := by
          rw [Nat.div_lt_iff_lt_mul (by decide : 0 < 2)]
          rw [Nat.pow_succ] at hn
          exact hn
        have := ih (n / 2) k h2
        omega

/-- Below `2^53` units nothing is shifted out. -/
theorem Float64.shift_eq_zero (n : Nat) (h : n < 2 ^ 53) : shift n = 0 := by
  unfold shift
  have := Float64.bitLength_le n n 53 h
  omega

/-- A magnitude whose shifted-out digits are all zero is not changed by the
rounding. -/
theorem Float64.roundMag_of_dvd (n : Nat) (h : 2 ^ shift n ∣ n) : roundMag n = n := by
  unfold roundMag
  have hr : n % 2 ^ shift n = 0 := Nat.mod_eq_zero_of_dvd h
  have hp : 0 < 2 ^ shift n := Nat.pow_pos (by decide)
  simp only [hr, Nat.mul_zero]
  rw [if_neg]
  · exact Nat.div_mul_cancel h
  · rintro (h1 | ⟨h1, -⟩) <;> omega

/-- A representable quantity is its own nearest binary64 value. -/
theorem Float64.ofUnits_exact (d : Int) (h : representable d.natAbs) : ofUnits d = fin d := by
  unfold ofUnits
  simp only [Float64.roundMag_of_dvd _ h.1]
  rw [if_neg (Nat.not_le.2 h.2)]
  by_cases hd : d < 0
  · rw [if_pos hd]
    congr 1
    omega
  · rw [if_neg hd]
    congr 1
    omega

/-- What the rounding gives has no digit below the shift. -/
theorem Float64.dvd_roundMag (n : Nat) : 2 ^ shift n ∣ roundMag n := by
  unfold roundMag
  dsimp only
  split
  · exact Nat.dvd_mul_left _ _
  · exact Nat.dvd_mul_left _ _

/-- The rounding is to nearest: it moves a magnitude by at most half of the
last digit kept. -/
theorem Float64.roundMag_near (n : Nat) :
    2 * (roundMag n - n) ≤ 2 ^ shift n ∧ 2 * (n - roundMag n) ≤ 2 ^ shift n := by
  unfold roundMag
  dsimp only
  have hdm : 2 ^ shift n * (n / 2 ^ shift n) + n % 2 ^ shift n = n := Nat.div_add_mod n _
  have hlt : n % 2 ^ shift n < 2 ^ shift n := Nat.mod_lt _ (Nat.pow_pos (by decide))
  generalize 2 ^ shift n = p at hdm hlt ⊢
  generalize n / p = q at hdm ⊢
  generalize n % p = r at hdm hlt ⊢
  have hqp : q * p = p * q := Nat.mul_comm q p
  have hq1 : (q + 1) * p = p * q + p := by rw [Nat.add_mul, Nat.one_mul, hqp]
  split
  · rename_i hc
    rw [hq1]
    rcases hc with hc | ⟨hc, -⟩ <;> omega
  · rename_i hc
    rw [hqp]
    have : ¬ p < 2 * r := fun h => hc (Or.inl h)
    omega

/-- The nearest binary64 value of a quantity is the quantity itself exactly
when the quantity is a binary64 value. -/
theorem Float64.ofUnits_eq_fin_iff (d : Int) : ofUnits d = fin d ↔ representable d.natAbs := by
  constructor
  · intro h
    unfold ofUnits at h
    dsimp only at h
    by_cases ho : overflowUnits ≤ roundMag d.natAbs
    · rw [if_pos ho] at h
      cases h
    · rw [if_neg ho] at h
      have hm : roundMag d.natAbs = d.natAbs := by
        by_cases hd : d < 0
        · rw [if_pos hd] at h
          injection h with h
          omega
        · rw [if_neg hd] at h
          injection h with h
          omega
      refine ⟨?_, ?_⟩
      · have := Float64.dvd_roundMag d.natAbs
        rw [hm] at this
        exact this
      · rw [hm] at ho
        exact Nat.not_le.1 ho
  · exact Float64.ofUnits_exact d

/-- Every magnitude below `2^53` units is a binary64 value. -/
theorem Float64.representable_of_lt (n : Nat) (h : n < 2 ^ 53) : representable n := by
  refine ⟨?_, ?_⟩
  · rw [Float64.shift_eq_zero n h]
    exact Nat.one_dvd n
  · have h53 : 53 < 2098 := by decide
    have hp : 2 ^ 53 < 2 ^ 2098 := Nat.pow_lt_pow_right (by decide) h53
    unfold overflowUnits
    omega

/-- C4, the claim refuted: the amounts are binary floating point, and a
balance delta is not always exact. The wrapper hands on the balances
18014398509481984 (`2^54`) and 1; their `float64` difference is again
18014398509481984, where the exact delta is 18014398509481983. Nor is every
balance an amount: 1000000000000000001 and 1000000000000000000 are the same
`float64`. -/
theorem GetBalance_delta_inexact :
    (demoWrapper.GetBalance 0 "0xA" 0).1.1 =
      fin ((18014398509481984 * 2 ^ 1074 : Nat) : Int) ∧
    (demoWrapper.GetBalance 0 "0xB" 0).1.1 = fin ((1 * 2 ^ 1074 : Nat) : Int) ∧
    Float64.sub (demoWrapper.GetBalance 0 "0xA" 0).1.1 (demoWrapper.GetBalance 0 "0xB" 0).1.1 =
      fin ((18014398509481984 * 2 ^ 1074 : Nat) : Int) ∧
    ¬ (Float64.sub (demoWrapper.GetBalance 0 "0xA" 0).1.1
        (demoWrapper.GetBalance 0 "0xB" 0).1.1 =
      fin (((18014398509481984 * 2 ^ 1074 : Nat) : Int) - ((1 * 2 ^ 1074 : Nat) : Int))) ∧
    Float64.ofInt 1000000000000000001 = Float64.ofInt 1000000000000000000 := by
  decide!

/-- C4 as amended: the amount `GetBalance` returns is the backend's `float64`,
handed on unchanged. A finite amount compares equal to itself. The delta of
two finite amounts is the nearest binary64 value of the exact difference: it
is exact if and only if the exact difference is itself a binary64 value, and
otherwise it is rounded, by at most half of the last of the 53 binary digits
kept, or is an infinity. -/
theorem GetBalance_float64 {P : Pkg} (w : blockchainWrapper P) (ctx : P.Ctx)
    (a₁ a₂ : String) (s₁ s₂ : P.World) (x y : Int)
    (hx : (w.client.GetBalance ctx a₁ s₁).1.1 = fin x)
    (hy : (w.client.GetBalance ctx a₂ s₂).1.1 = fin y) :
    (w.GetBalance ctx a₁ s₁).1.1 = fin x ∧
    (w.GetBalance ctx a₂ s₂).1.1 = fin y ∧
    Float64.eq (w.GetBalance ctx a₁ s₁).1.1 (w.GetBalance ctx a₁ s₁).1.1 = true ∧
    Float64.sub (w.GetBalance ctx a₁ s₁).1.1 (w.GetBalance ctx a₂ s₂).1.1 =
      (if overflowUnits ≤ roundMag (x - y).natAbs then inf (decide (x - y < 0))
       else if x - y < 0 then fin (-(roundMag (x - y).natAbs : Int))
       else fin (roundMag (x - y).natAbs : Int)) ∧
    (Float64.sub (w.GetBalance ctx a₁ s₁).1.1 (w.GetBalance ctx a₂ s₂).1.1 = fin (x - y) ↔
      representable (x - y).natAbs) ∧
    2 * (roundMag (x - y).natAbs - (x - y).natAbs) ≤ 2 ^ shift (x - y).natAbs ∧
    2 * ((x - y).natAbs - roundMag (x - y).natAbs) ≤ 2 ^ shift (x - y).natAbs := by
  have h1 : (w.GetBalance ctx a₁ s₁).1.1 = fin x := hx
  have h2 : (w.GetBalance ctx a₂ s₂).1.1 = fin y := hy
  refine ⟨h1, h2, ?_, ?_, ?_, Float64.roundMag_near _⟩
  · rw [h1]
    simp [Float64.eq]
  · rw [h1, h2]
    rfl
  · rw [h1, h2]
    exact Float64.ofUnits_eq_fin_iff (x - y)

/-- Witness of the amended C4: the balances 3 and 1, whose delta 2 is exact,
and the balances 18014398509481984 and 1, whose delta is rounded. -/
theorem GetBalance_float64_witness :
    ((demoClient.GetBalance 0 "0xC" 0).1.1 = fin ((3 * 2 ^ 1074 : Nat) : Int) ∧
      (demoClient.GetBalance 0 "0xB" 0).1.1 = fin ((1 * 2 ^ 1074 : Nat) : Int) ∧
      representable (((3 * 2 ^ 1074 : Nat) : Int) - ((1 * 2 ^ 1074 : Nat) : Int)).natAbs ∧
      Float64.sub (demoWrapper.GetBalance 0 "0xC" 0).1.1
          (demoWrapper.GetBalance 0 "0xB" 0).1.1 =
        fin (((3 * 2 ^ 1074 : Nat) : Int) - ((1 * 2 ^ 1074 : Nat) : Int))) ∧
    ((demoClient.GetBalance 0 "0xA" 0).1.1 =
        fin ((18014398509481984 * 2 ^ 1074 : Nat) : Int) ∧
      ¬ representable
        (((18014398509481984 * 2 ^ 1074 : Nat) : Int) - ((1 * 2 ^ 1074 : Nat) : Int)).natAbs ∧
      ¬ (Float64.sub (demoWrapper.GetBalance 0 "0xA" 0).1.1
          (demoWrapper.GetBalance 0 "0xB" 0).1.1 =
        fin (((18014398509481984 * 2 ^ 1074 : Nat) : Int) - ((1 * 2 ^ 1074 : Nat) : Int)))) :=
  have hC := GetBalance_float64 demoWrapper 0 "0xC" "0xB" 0 0 ((3 * 2 ^ 1074 : Nat) : Int)
    ((1 * 2 ^ 1074 : Nat) : Int) (by decide!) (by decide!)
  have hA := GetBalance_float64 demoWrapper 0 "0xA" "0xB" 0 0
    ((18014398509481984 * 2 ^ 1074 : Nat) : Int) ((1 * 2 ^ 1074 : Nat) : Int)
    (by decide!) (by decide!)
  have hrC : representable
      (((3 * 2 ^ 1074 : Nat) : Int) - ((1 * 2 ^ 1074 : Nat) : Int)).natAbs := by decide!
  have hrA : ¬ representable
      (((18014398509481984 * 2 ^ 1074 : Nat) : Int) - ((1 * 2 ^ 1074 : Nat) : Int)).natAbs := by
    decide!
  ⟨⟨by decide!, by decide!, hrC, hC.2.2.2.2.1.2 hrC⟩,
   ⟨by decide!, hrA, fun h => hrA (hA.2.2.2.2.1.1 h)⟩⟩

end Amounts

section Detector

open ActivityDetector

/-- An asset with a non-zero recorded quantity is listed in the snapshot. -/
theorem ActivityDetector.mem_of_quantityOf_ne_zero (snapshot : List Asset) (k : AssetId)
    (h : quantityOf snapshot k ≠ 0) : k ∈ snapshot.map Asset.id := by
  unfold quantityOf at h
  cases hf : snapshot.find? (fun a => decide (a.id = k)) with
  | none => rw [hf] at h; exact absurd rfl h
  | some a =>
    have hm : a ∈ snapshot := List.mem_of_find?_eq_some hf
    have hp := List.find?_some hf
    have hk : a.id = k := by simpa using hp
    exact hk ▸ List.mem_map_of_mem Asset.id hm

/-- C7: `detect` emits a balance-change event for an asset if and only if the
absolute difference of its new and old quantity exceeds epsilon, the event
carries that difference, and no asset gets two events; for quantity-identical
input, and so for an unchanged snapshot, it emits no event. As a function of
its three arguments `detect` has no side effects. -/
theorem detect_iff (epsilon : Nat) (old new : List Asset) :
    (∀ k, (∃ e ∈ detect epsilon old new, e.id = k) ↔
      epsilon < (quantityOf new k - quantityOf old k).natAbs) ∧
    (∀ e ∈ detect epsilon old new, e.delta = quantityOf new e.id - quantityOf old e.id) ∧
    ((detect epsilon old new).map AlertEvent.id).Nodup ∧
    ((∀ k, quantityOf new k = quantityOf old k) → detect epsilon old new = []) ∧
    detect epsilon old old = [] := by
  have hmem : ∀ e, e ∈ detect epsilon old new ↔
      e.id ∈ (new.map Asset.id ++ old.map Asset.id).dedup ∧
        epsilon < (quantityOf new e.id - quantityOf old e.id).natAbs ∧
        e.delta = quantityOf new e.id - quantityOf old e.id := by
    intro e
    unfold detect
    rw [List.mem_filterMap]
    constructor
    · rintro ⟨k, hk, hf⟩
      dsimp only at hf
      split at hf
      · rename_i hc
        cases hf
        exact ⟨hk, hc, rfl⟩
      · cases hf
    · rintro ⟨hk, hc, hd⟩
      refine ⟨e.id, hk, ?_⟩
      dsimp only
      rw [if_pos hc]
      cases e
      simp_all
  have hnil : ∀ o n : List Asset, (∀ k, quantityOf n k = quantityOf o k) →
      detect epsilon o n = [] := by
    intro o n hq
    unfold detect
    rw [List.filterMap_eq_nil_iff]
    intro k _
    simp [hq k]
  refine ⟨?_, ?_, ?_, hnil old new, hnil old old (fun _ => rfl)⟩
  · intro k
    constructor
    · rintro ⟨e, he, rfl⟩
      exact ((hmem e).1 he).2.1
    · intro hc
      refine ⟨⟨k, quantityOf new k - quantityOf old k⟩, (hmem _).2 ⟨?_, hc, rfl⟩, rfl⟩
      rw [List.mem_dedup, List.mem_append]
      by_cases hn : quantityOf new k = 0
      · right
        apply ActivityDetector.mem_of_quantityOf_ne_zero
        intro ho
        rw [hn, ho] at hc
        simp at hc
      · left
        exact ActivityDetector.mem_of_quantityOf_ne_zero new k hn
  · intro e he
    exact ((hmem e).1 he).2.2
  · have hsub : ((detect epsilon old new).map AlertEvent.id).Sublist
        ((new.map Asset.id ++ old.map Asset.id).dedup) := by
      unfold detect
      generalize (new.map Asset.id ++ old.map Asset.id).dedup = l
      induction l with
      | nil => simp
      | cons k t ih =>
        by_cases hc : epsilon < (quantityOf new k - quantityOf old k).natAbs
        · simp only [List.filterMap_cons, hc, if_true, List.map_cons]
          exact ih.cons₂ k
        · simp only [List.filterMap_cons, hc, if_false]
          exact ih.cons k
    exact hsub.nodup (List.nodup_dedup _)

/-- Witness of C7, the scenario of spec 8 in tenths of a token: a poll that
returns 10.0 again gives no event, the poll that returns 12.5 gives exactly
one event, with delta +2.5. -/
theorem detect_iff_witness :
    (∀ k, quantityOf [⟨tokenX, 100, 2⟩] k = quantityOf [⟨tokenX, 100, 1⟩] k) ∧
    detect 0 [⟨tokenX, 100, 1⟩] [⟨tokenX, 100, 2⟩] = [] ∧
    detect 0 [⟨tokenX, 100, 2⟩] [⟨tokenX, 125, 3⟩] = [⟨tokenX, 25⟩] :=
  have h : ∀ k, quantityOf [⟨tokenX, 100, 2⟩] k = quantityOf [⟨tokenX, 100, 1⟩] k := by
    intro k
    by_cases hk : tokenX = k <;> simp [quantityOf, hk]
  ⟨h, (detect_iff 0 [⟨tokenX, 100, 1⟩] [⟨tokenX, 100, 2⟩]).2.2.2.1 h, by decide⟩

end Detector

end W3hub
